import Mathlib

/-!
Shallow embedding of `scvi/models/distributions.py`: the parameterization
converters `from_nb_params2_to_1` / `from_nb_params1_to_2`, the `NB`
(negative binomial) distribution class and the `ZINB` (zero-inflated
negative binomial) subclass.

Modelling conventions:
* Tensors are modelled elementwise by a single real scalar; `broadcast_all`
  on well-formed inputs is the identity, and `broadcast_all` applied to a
  `None` argument raises (modelled by `Err.broadcastError`).
* Optional constructor arguments (`total_count`, `probs`, `logits`, `mu`,
  `theta`, `zi_logits`) are `Option ℝ`, `None` being `none`.
* Python exceptions are modelled by `Except Err`: the "please use one of the
  two possible parameterizations" `ValueError` is `Err.configurationError`,
  the constraint/`_validate_sample` `ValueError` is `Err.domainError`.
* Random draws are oracles passed as arguments: the Gamma sampler is a
  function from the Gamma parameters to a real, the Poisson sampler a
  function from the rate to a real, the per-element uniform draw a real.
* The external log-likelihood kernels (`log_nb_positive`,
  `log_zinb_positive`) are external collaborators; `log_prob` is modelled as
  returning the exact argument list it passes to the kernel.
-/

namespace ScviDist

/-- Python exceptions raised by the distribution layer, distinguished by
site: the constructor-parameterization `ValueError`, the argument/support
validation `ValueError`, and the `ValueError` raised by
`torch.distributions.utils.broadcast_all` when handed a `None`.
`divisionByZero` is the error branch of the guarded division used to analyse
the unguarded `theta / mu` in `NB._gamma`. -/
inductive Err where
  | configurationError : Err
  | domainError : Err
  | broadcastError : Err
  | divisionByZero : Err
deriving DecidableEq, Repr

/-- Elementwise model of `torch.distributions.utils.probs_to_logits`
(external torch utility; the float-epsilon probability clamping is
omitted): `log(p) - log1p(-p)` in the binary case, `log(p)` otherwise. -/
noncomputable def probs_to_logits (is_binary : Bool) (p : ℝ) : ℝ :=
  if is_binary then Real.log p - Real.log (1 - p) else Real.log p

/-- Elementwise model of `torch.distributions.utils.logits_to_probs`
(external torch utility): the sigmoid `1 / (1 + exp (-l))` in the binary
case, `exp l` (elementwise softmax numerator) otherwise. -/
noncomputable def logits_to_probs (is_binary : Bool) (l : ℝ) : ℝ :=
  if is_binary then 1 / (1 + Real.exp (-l)) else Real.exp l

/-- `from_nb_params2_to_1(mu, theta, eps)`: converts the (mean,
overdispersion) parameterization to (total_count, logits);
`logits = (mu + eps).log() - (theta + eps).log()`, `total_count = theta`.
Returned pair is `(total_count, logits)`. -/
noncomputable def from_nb_params2_to_1 (mu theta eps : ℝ) : ℝ × ℝ :=
  (theta, Real.log (mu + eps) - Real.log (theta + eps))

/-- `from_nb_params1_to_2(total_count, logits)`: converts the
(total_count, logits) parameterization to (mean, overdispersion);
`theta = total_count`, `mu = logits.exp() * theta`. Returned pair is
`(mu, theta)`. -/
noncomputable def from_nb_params1_to_2 (total_count logits : ℝ) : ℝ × ℝ :=
  (Real.exp logits * total_count, total_count)

/-- Spec-stated formula for `toMeanDispersion(total_count, logits)`:
`theta = total_count`; `mu = exp(logits) * theta`. Stated from the spec's
words, to be compared with `from_nb_params1_to_2`. -/
noncomputable def toMeanDispersion_spec (total_count logits : ℝ) : ℝ × ℝ :=
  (Real.exp logits * total_count, total_count)

/-- Spec-stated formula for `toFailuresLogits(mu, theta, eps)`:
`logits = log(mu + eps) - log(theta + eps)`; `total_count = theta`. Stated
from the spec's words, to be compared with `from_nb_params2_to_1`. -/
noncomputable def toFailuresLogits_spec (mu theta eps : ℝ) : ℝ × ℝ :=
  (theta, Real.log (mu + eps) - Real.log (theta + eps))

/-- State of a constructed `NB` distribution object: the normalized
`(mu, theta)` pair, the `validate_args` flag stored by
`Distribution.__init__`, and the fixed `self._eps = 1e-8` set by
`NB.__init__`. -/
structure NB where
  mu : ℝ
  theta : ℝ
  validate_args : Bool
  eps : ℝ

/-- Final phase of `NB.__init__` after normalization to `(mu, theta)`:
the attributes are assigned and `super().__init__(validate_args=...)`
validates the `arg_constraints` (`mu ≥ 0`, `theta ≥ 0`,
`constraints.greater_than_eq(0)`) when `validate_args` is set, raising the
constraint `ValueError` (modelled `Err.domainError`) otherwise; `self._eps`
was set to `1e-8` at the top of `__init__`. -/
noncomputable def NB.fromMuTheta (m t : ℝ) (validate : Bool) : Except Err NB :=
  if validate ∧ (m < 0 ∨ t < 0) then .error .domainError
  else .ok ⟨m, t, validate, 1e-8⟩

/-- `NB.__init__(total_count, probs, logits, mu, theta, validate_args)`:
raises the parameterization `ValueError` when `(mu is None) == (total_count
is None)`; otherwise sets `using_param_1 = total_count is not None and
(logits is not None or probs is not None)`; on the param-1 path converts
`probs` to `logits` if needed and normalizes through
`from_nb_params1_to_2`; on the other path runs `broadcast_all(mu, theta)`,
which raises (modelled `Err.broadcastError`) if either is `None`. -/
noncomputable def NB.init (total_count probs logits mu theta : Option ℝ)
    (validate : Bool) : Except Err NB :=
  if mu.isNone = total_count.isNone then .error .configurationError
  else if total_count.isSome && (logits.isSome || probs.isSome) then
    match total_count, logits, probs with
    | some tc, some l, _ =>
        let mt := from_nb_params1_to_2 tc l
        NB.fromMuTheta mt.1 mt.2 validate
    | some tc, none, some p =>
        let mt := from_nb_params1_to_2 tc (probs_to_logits false p)
        NB.fromMuTheta mt.1 mt.2 validate
    | _, _, _ => .error .broadcastError
  else
    match mu, theta with
    | some m, some t => NB.fromMuTheta m t validate
    | _, _ => .error .broadcastError

/-- Parameters handed to the `Gamma` distribution constructor. -/
structure GammaSpec where
  concentration : ℝ
  rate : ℝ

/-- `NB._gamma()`: builds `Gamma(concentration=self.theta,
rate=self.theta / self.mu)` (the rate is `1/scale`). The division is the
raw tensor division, with no epsilon guard. -/
noncomputable def NB.gammaSpec (d : NB) : GammaSpec :=
  { concentration := d.theta, rate := d.theta / d.mu }

/-- Guarded division: errors when the denominator is zero, otherwise
returns the quotient. Used to analyse the unguarded division in
`NB._gamma`. -/
noncomputable def checkedDiv (a b : ℝ) : Except Err ℝ :=
  if b = 0 then .error .divisionByZero else .ok (a / b)

/-- The rate computation of `NB._gamma` (`self.theta / self.mu`) run
through the guarded division `checkedDiv`. -/
noncomputable def NB.gammaRateChecked (d : NB) : Except Err ℝ :=
  checkedDiv d.theta d.mu

/-- `NB.sample(sample_shape)` with the two random stages passed as oracle
samplers: `gamma_d = self._gamma()`; `p_means = gamma_d.sample(...)`;
`l_train = torch.clamp(p_means, max=1e8)`;
`counts = Poisson(l_train).sample()`. -/
noncomputable def NB.sample (d : NB) (gammaSampler : GammaSpec → ℝ)
    (poissonSampler : ℝ → ℝ) : ℝ :=
  let gamma_d := d.gammaSpec
  let p_means := gammaSampler gamma_d
  let l_train := min p_means 1e8
  poissonSampler l_train

/-- Membership in `constraints.nonnegative_integer`, the declared support
of `NB` and `ZINB`: the value is non-negative and integral (the torch check
is `(value % 1 == 0) & (value >= 0)`). -/
def nbSupportMem (v : ℝ) : Prop := 0 ≤ v ∧ ∃ n : ℤ, v = (n : ℝ)

/-- The argument list `NB.log_prob` passes to the external kernel
`log_nb_positive(value, mu=self.mu, theta=self.theta, eps=self._eps)`. -/
structure NBKernelCall where
  value : ℝ
  mu : ℝ
  theta : ℝ
  eps : ℝ

open Classical in
/-- `NB.log_prob(value)`: when `self._validate_args`, `_validate_sample`
checks that `value` lies in the declared support (non-negative integer),
raising the support `ValueError` (modelled `Err.domainError`) otherwise;
then the call `log_nb_positive(value, mu, theta, eps=self._eps)` is
returned, recorded as an `NBKernelCall`. -/
noncomputable def NB.log_prob (d : NB) (value : ℝ) : Except Err NBKernelCall :=
  if d.validate_args ∧ ¬ nbSupportMem value then .error .domainError
  else .ok ⟨value, d.mu, d.theta, d.eps⟩

/-- State of a constructed `ZINB` object: the inherited `NB` state, the
`zi_logits` instance attribute assigned by `ZINB.__init__` (which shadows
the class-level lazy property of the same name), and the cache slot of the
lazy `zi_probs` property (empty until first access). -/
structure ZINB extends NB where
  zi_logits : ℝ
  zi_probs_cache : Option ℝ

/-- `ZINB.__init__(total_count, probs, logits, mu, theta, zi_logits,
validate_args)`: first runs `NB.__init__` (whose errors propagate), then
`broadcast_all(zi_logits, self.mu, self.theta)`, which raises (modelled
`Err.broadcastError`) when `zi_logits` is `None`; the lazy `zi_probs`
cache starts empty. -/
noncomputable def ZINB.init (total_count probs logits mu theta zi_logits : Option ℝ)
    (validate : Bool) : Except Err ZINB :=
  match NB.init total_count probs logits mu theta validate with
  | .error e => .error e
  | .ok nb =>
    match zi_logits with
    | some zl => .ok ⟨nb, zl, none⟩
    | none => .error .broadcastError

/-- The lazy `zi_probs` property: on first access computes
`logits_to_probs(self.zi_logits, is_binary=True)` and stores it on the
instance; later accesses return the stored value. Returns the value
together with the post-access object state. -/
noncomputable def ZINB.ziProbsGet (z : ZINB) : ℝ × ZINB :=
  match z.zi_probs_cache with
  | some v => (v, z)
  | none =>
    let v := logits_to_probs true z.zi_logits
    (v, { z with zi_probs_cache := some v })

/-- `ZINB.sample(sample_shape)` elementwise, with the NB random stages and
the per-element uniform draw `u` (`torch.rand_like(samp)`) as oracles:
`samp = super().sample(...)`; `is_zero = u <= self.zi_probs`;
`samp[is_zero] = 0.0`. (The `torch.no_grad()` context is not modelled.) -/
noncomputable def ZINB.sample (z : ZINB) (gammaSampler : GammaSpec → ℝ)
    (poissonSampler : ℝ → ℝ) (u : ℝ) : ℝ :=
  let samp := z.toNB.sample gammaSampler poissonSampler
  let is_zero := u ≤ (z.ziProbsGet).1
  if is_zero then 0 else samp

/-- Composition of the two converters, starting from `(mu, theta)`:
`from_nb_params1_to_2(*from_nb_params2_to_1(mu, theta, eps))`, the
round-trip of §8 of the spec. Returned pair is `(mu, theta)` style. -/
noncomputable def roundTrip (mu theta eps : ℝ) : ℝ × ℝ :=
  from_nb_params1_to_2 (from_nb_params2_to_1 mu theta eps).1
    (from_nb_params2_to_1 mu theta eps).2

/-! Helper lemmas shared by the claim theorems. -/

/-- An `ok` result of `NB.fromMuTheta` is exactly the record built from its
arguments, with `eps = 1e-8`. -/
theorem NB.fromMuTheta_ok {m t : ℝ} {v : Bool} {d : NB}
    (h : NB.fromMuTheta m t v = .ok d) : d = ⟨m, t, v, 1e-8⟩ := by
  unfold NB.fromMuTheta at h
  split at h
  · simp at h
  · exact (Except.ok.injEq _ _).mp h.symm ▸ rfl

/-- Every distribution object produced by `NB.__init__` stores the
`validate_args` flag it was given and the fixed `self._eps = 1e-8`. -/
theorem NB.init_ok_shape {total_count probs logits mu theta : Option ℝ}
    {v : Bool} {d : NB}
    (h : NB.init total_count probs logits mu theta v = .ok d) :
    d.validate_args = v ∧ d.eps = 1e-8 := by
  unfold NB.init at h
  split at h
  · simp at h
  · split at h
    · split at h
      · rw [NB.fromMuTheta_ok h]; exact ⟨rfl, rfl⟩
      · rw [NB.fromMuTheta_ok h]; exact ⟨rfl, rfl⟩
      · simp at h
    · split at h
      · rw [NB.fromMuTheta_ok h]; exact ⟨rfl, rfl⟩
      · simp at h

/-- Every object produced by `ZINB.__init__` stores the supplied
`zi_logits` as an instance attribute and starts with an empty lazy
`zi_probs` cache. -/
theorem ZINB.init_ok_stores_logits {total_count probs logits mu theta : Option ℝ}
    {zl : ℝ} {v : Bool} {z : ZINB}
    (h : ZINB.init total_count probs logits mu theta (some zl) v = .ok z) :
    ∃ nb, z = ⟨nb, zl, none⟩ := by
  unfold ZINB.init at h
  split at h
  · simp at h
  · exact ⟨_, ((Except.ok.injEq _ _).mp h).symm⟩

/-- The binary `logits_to_probs` transform (a sigmoid) always lands in the
half-open interval `[0, 1)`. -/
theorem logits_to_probs_binary_mem_Ico (l : ℝ) :
    0 ≤ logits_to_probs true l ∧ logits_to_probs true l < 1 := by
  unfold logits_to_probs
  rw [if_pos rfl]
  constructor
  · positivity
  · rw [div_lt_one (by positivity)]
    have h := Real.exp_pos (-l)
    linarith

/-! Claim theorems. -/

/-- C1: for every call to the `NB` (or `ZINB`) constructor, if both the
mu-style inputs (`mu`/`theta`) and the total_count-style inputs are given
simultaneously, or if neither family is given, construction raises the
configuration `ValueError` and no distribution object is produced. -/
theorem C1_construction_exclusivity
    (total_count probs logits mu theta zi_logits : Option ℝ) (validate : Bool)
    (h : (mu.isSome ∧ theta.isSome ∧ total_count.isSome
            ∧ (logits.isSome ∨ probs.isSome))
       ∨ (mu = none ∧ theta = none ∧ total_count = none
            ∧ logits = none ∧ probs = none)) :
    NB.init total_count probs logits mu theta validate
      = .error .configurationError
    ∧ ZINB.init total_count probs logits mu theta zi_logits validate
      = .error .configurationError := by
  have hcond : mu.isNone = total_count.isNone := by
    rcases h with ⟨h1, _, h3, _⟩ | ⟨h1, _, h3, _, _⟩
    · cases mu <;> cases total_count <;> simp_all
    · rw [h1, h3]
  have hnb : NB.init total_count probs logits mu theta validate
      = .error .configurationError := by
    unfold NB.init
    rw [if_pos hcond]
  refine ⟨hnb, ?_⟩
  unfold ZINB.init
  rw [hnb]

/-- C1 witness: both families supplied, and no family supplied, both raise
the configuration error, for `NB` and `ZINB`. -/
theorem C1_construction_exclusivity_witness :
    NB.init (some 1) none (some 0) (some 2) (some 3) true
      = .error .configurationError
    ∧ ZINB.init none none none none none (some 0) true
      = .error .configurationError :=
  ⟨(C1_construction_exclusivity (some 1) none (some 0) (some 2) (some 3)
      (some 0) true (Or.inl (by simp))).1,
   (C1_construction_exclusivity none none none none none (some 0) true
      (Or.inr (by simp))).2⟩

/-- C2: `NB.sample` builds the Gamma stage with concentration `theta` and
rate `theta / mu`, clamps the Gamma draw to a maximum of `1e8`, and the
Poisson stage receives exactly `min g 1e8` where `g` is the Gamma draw. -/
theorem C2_nb_sample_gamma_poisson_pipeline (d : NB)
    (gammaSampler : GammaSpec → ℝ) (poissonSampler : ℝ → ℝ) :
    d.gammaSpec = ⟨d.theta, d.theta / d.mu⟩
    ∧ d.sample gammaSampler poissonSampler
        = poissonSampler (min (gammaSampler ⟨d.theta, d.theta / d.mu⟩) 1e8) :=
  ⟨rfl, rfl⟩

/-- C3: in `ZINB.sample`, given the base NB draw and the per-element
uniform draw `u`, the returned count is exactly `0` when
`u ≤ zi_probs`, and is the NB draw unchanged when `u > zi_probs`. -/
theorem C3_zinb_zero_inflation_masking (z : ZINB)
    (gammaSampler : GammaSpec → ℝ) (poissonSampler : ℝ → ℝ) (u : ℝ) :
    (u ≤ (z.ziProbsGet).1 →
        z.sample gammaSampler poissonSampler u = 0)
    ∧ ((z.ziProbsGet).1 < u →
        z.sample gammaSampler poissonSampler u
          = z.toNB.sample gammaSampler poissonSampler) := by
  unfold ZINB.sample
  constructor
  · intro h
    simp only
    rw [if_pos h]
  · intro h
    simp only
    rw [if_neg (not_le.mpr h)]

/-- C3 witness: with zero-inflation probability `1/2`, uniform draw `1/4`
forces the count to zero and uniform draw `3/4` keeps the NB draw `7`. -/
theorem C3_zinb_zero_inflation_masking_witness :
    ZINB.sample ⟨⟨2, 1, true, 1e-8⟩, 0, some (1/2)⟩
      (fun _ => 3) (fun _ => 7) (1/4) = 0
    ∧ ZINB.sample ⟨⟨2, 1, true, 1e-8⟩, 0, some (1/2)⟩
      (fun _ => 3) (fun _ => 7) (3/4) = 7 := by
  constructor
  · exact (C3_zinb_zero_inflation_masking ⟨⟨2, 1, true, 1e-8⟩, 0, some (1/2)⟩
      (fun _ => 3) (fun _ => 7) (1/4)).1 (by norm_num [ZINB.ziProbsGet])
  · have h := (C3_zinb_zero_inflation_masking ⟨⟨2, 1, true, 1e-8⟩, 0, some (1/2)⟩
      (fun _ => 3) (fun _ => 7) (3/4)).2 (by norm_num [ZINB.ziProbsGet])
    simpa [NB.sample] using h

/-- C9: calling the `NB` constructor with only `total_count` set (no
`probs`, `logits`, `mu`, `theta`) does not take the configuration-error
branch: `using_param_1` is false, the mu/theta branch runs
`broadcast_all(None, None)`, and the resulting failure is the broadcast
error, not the documented configuration error. -/
theorem C9_total_count_alone_misses_config_error (tc : ℝ) (validate : Bool) :
    NB.init (some tc) none none none none validate = .error .broadcastError
    ∧ Err.broadcastError ≠ Err.configurationError := by
  constructor
  · unfold NB.init
    simp
  · decide

/-- C10: the constructor accepts `mu = 0` (the declared constraint is only
`mu ≥ 0`), yet the Gamma rate `theta / mu` of `NB._gamma` is an unguarded
division: under a guarded division it errors exactly when `mu = 0`, so the
precondition for the division to be safe is strictly `mu > 0`, stronger
than the accepted domain. -/
theorem C10_gamma_rate_unguarded_division (d : NB) :
    NB.init none none none (some 0) (some 1) true = .ok ⟨0, 1, true, 1e-8⟩
    ∧ (d.mu = 0 → d.gammaRateChecked = .error .divisionByZero)
    ∧ (0 < d.mu → d.gammaRateChecked = .ok (d.theta / d.mu)) := by
  refine ⟨?_, ?_, ?_⟩
  · unfold NB.init NB.fromMuTheta
    norm_num
  · intro h
    unfold NB.gammaRateChecked checkedDiv
    rw [if_pos h]
  · intro h
    unfold NB.gammaRateChecked checkedDiv
    rw [if_neg h.ne']

/-- C10 witness: the distribution constructed with `mu = 0` hits the
division-by-zero branch, while `mu = 2` divides safely. -/
theorem C10_gamma_rate_unguarded_division_witness :
    NB.gammaRateChecked ⟨0, 1, true, 1e-8⟩ = .error .divisionByZero
    ∧ NB.gammaRateChecked ⟨2, 1, true, 1e-8⟩ = .ok (1 / 2) := by
  constructor
  · exact (C10_gamma_rate_unguarded_division ⟨0, 1, true, 1e-8⟩).2.1 rfl
  · have h := (C10_gamma_rate_unguarded_division ⟨2, 1, true, 1e-8⟩).2.2
      (by norm_num)
    simpa using h

/-- C4: the converter functions compute exactly the spec-stated elementwise
formulas (pure functions, no side effects): `from_nb_params1_to_2`
(`toMeanDispersion`) returns `theta = total_count` and
`mu = exp(logits) * theta`; `from_nb_params2_to_1` (`toFailuresLogits`)
returns `logits = log(mu + eps) - log(theta + eps)` and
`total_count = theta`. -/
theorem C4_converter_formulas (total_count logits mu theta eps : ℝ) :
    from_nb_params1_to_2 total_count logits
      = toMeanDispersion_spec total_count logits
    ∧ from_nb_params2_to_1 mu theta eps
      = toFailuresLogits_spec mu theta eps :=
  ⟨rfl, rfl⟩

/-- C5: for `mu, theta > 0` and `eps ≥ 0`, the round trip
`from_nb_params1_to_2 ∘ from_nb_params2_to_1` returns `theta` exactly and
`mu` within the tolerance `(|theta - mu| / theta) * eps`, proportional to
`eps`; at `eps = 0` the round trip recovers `mu` exactly. -/
theorem C5_converter_roundtrip (mu theta eps : ℝ)
    (hmu : 0 < mu) (htheta : 0 < theta) (heps : 0 ≤ eps) :
    (roundTrip mu theta eps).2 = theta
    ∧ |(roundTrip mu theta eps).1 - mu| ≤ |theta - mu| / theta * eps
    ∧ (eps = 0 → (roundTrip mu theta eps).1 = mu) := by
  have hme : 0 < mu + eps := by linarith
  have hte : 0 < theta + eps := by linarith
  have hfst : (roundTrip mu theta eps).1 = (mu + eps) / (theta + eps) * theta := by
    unfold roundTrip from_nb_params1_to_2 from_nb_params2_to_1
    simp only
    rw [Real.exp_sub, Real.exp_log hme, Real.exp_log hte]
  refine ⟨rfl, ?_, ?_⟩
  · rw [hfst]
    have hdiff : (mu + eps) / (theta + eps) * theta - mu
        = eps * (theta - mu) / (theta + eps) := by
      field_simp
      ring
    rw [hdiff, abs_div, abs_mul, abs_of_nonneg heps, abs_of_pos hte]
    calc eps * |theta - mu| / (theta + eps)
        ≤ eps * |theta - mu| / theta := by
          gcongr
          linarith
      _ = |theta - mu| / theta * eps := by ring
  · intro h
    rw [hfst, h, add_zero, add_zero]
    field_simp

/-- C5 witness: the round trip at `mu = 2`, `theta = 1`, `eps = 0` is
exact. -/
theorem C5_converter_roundtrip_witness :
    (roundTrip 2 1 0).2 = 1
    ∧ |(roundTrip 2 1 0).1 - 2| ≤ |1 - 2| / 1 * 0
    ∧ ((0 : ℝ) = 0 → (roundTrip 2 1 0).1 = 2) :=
  C5_converter_roundtrip 2 1 0 (by norm_num) (by norm_num) (by norm_num)

/-- C6: for every constructed `NB` distribution, when `validate_args` is
true `log_prob` raises the support error for a value outside the
non-negative-integer support and otherwise returns the kernel call
`log_nb_positive(value, mu, theta, eps)` with the fixed epsilon `1e-8`;
when `validate_args` is false no support check is performed and the kernel
call is returned for any value. -/
theorem C6_nb_log_prob_validation (total_count probs logits mu theta : Option ℝ)
    (v : Bool) (d : NB) (value : ℝ)
    (h : NB.init total_count probs logits mu theta v = .ok d) :
    (v = true → ¬ nbSupportMem value →
        d.log_prob value = .error .domainError)
    ∧ (v = true → nbSupportMem value →
        d.log_prob value = .ok ⟨value, d.mu, d.theta, 1e-8⟩)
    ∧ (v = false →
        d.log_prob value = .ok ⟨value, d.mu, d.theta, 1e-8⟩) := by
  obtain ⟨hv, he⟩ := NB.init_ok_shape h
  refine ⟨?_, ?_, ?_⟩
  · intro h1 h2
    unfold NB.log_prob
    rw [if_pos ⟨by rw [hv, h1], h2⟩]
  · intro _ h2
    unfold NB.log_prob
    rw [if_neg (fun hc => hc.2 h2), he]
  · intro h1
    unfold NB.log_prob
    rw [if_neg (fun hc => by rw [hv, h1] at hc; exact Bool.noConfusion hc.1), he]

/-- C6 witness: a validating `NB(mu=3, theta=4)` rejects the negative
value `-1` and accepts `2` with the kernel epsilon `1e-8`; with validation
off, `-1` passes straight through to the kernel. -/
theorem C6_nb_log_prob_validation_witness :
    NB.log_prob ⟨3, 4, true, 1e-8⟩ (-1) = .error .domainError
    ∧ NB.log_prob ⟨3, 4, true, 1e-8⟩ 2 = .ok ⟨2, 3, 4, 1e-8⟩
    ∧ NB.log_prob ⟨3, 4, false, 1e-8⟩ (-1) = .ok ⟨-1, 3, 4, 1e-8⟩ := by
  have hinit : NB.init none none none (some 3) (some 4) true
      = .ok ⟨3, 4, true, 1e-8⟩ := by
    unfold NB.init NB.fromMuTheta
    norm_num
  have hinit2 : NB.init none none none (some 3) (some 4) false
      = .ok ⟨3, 4, false, 1e-8⟩ := by
    unfold NB.init NB.fromMuTheta
    norm_num
  refine ⟨?_, ?_, ?_⟩
  · exact (C6_nb_log_prob_validation none none none (some 3) (some 4) true
      ⟨3, 4, true, 1e-8⟩ (-1) hinit).1 rfl (fun hc => by
        norm_num [nbSupportMem] at hc)
  · exact (C6_nb_log_prob_validation none none none (some 3) (some 4) true
      ⟨3, 4, true, 1e-8⟩ 2 hinit).2.1 rfl ⟨by norm_num, ⟨2, by norm_num⟩⟩
  · exact (C6_nb_log_prob_validation none none none (some 3) (some 4) false
      ⟨3, 4, false, 1e-8⟩ (-1) hinit2).2.2 rfl

/-- C7 counterexample: a `ZINB` cannot be constructed by supplying only the
probability member of the zero-inflation pair — the constructor has no
`zi_probs` parameter, and leaving `zi_logits` unset makes
`broadcast_all(zi_logits, mu, theta)` raise even though the NB parameters
`mu = 2`, `theta = 1` are valid. -/
theorem C7_zi_probs_only_construction_fails :
    ZINB.init none none none (some 2) (some 1) none true
      = .error .broadcastError := by
  have hnb : NB.init none none none (some 2) (some 1) true
      = .ok ⟨2, 1, true, 1e-8⟩ := by
    unfold NB.init NB.fromMuTheta
    norm_num
  unfold ZINB.init
  rw [hnb]

/-- C7 (amended): a `ZINB` must be constructed by supplying `zi_logits`;
the instance then stores `zi_logits` directly (the class-level lazy
`zi_logits` property is shadowed), while `zi_probs` is derived lazily from
`zi_logits` via the binary logit-to-probability transform on first access,
computed at most once and cached for the instance's lifetime. -/
theorem C7_zi_probs_lazy_once_cached
    (total_count probs logits mu theta : Option ℝ) (zl : ℝ) (v : Bool)
    (z : ZINB)
    (h : ZINB.init total_count probs logits mu theta (some zl) v = .ok z) :
    z.zi_logits = zl
    ∧ z.zi_probs_cache = none
    ∧ (z.ziProbsGet).1 = logits_to_probs true zl
    ∧ (z.ziProbsGet).2.zi_probs_cache = some (logits_to_probs true zl)
    ∧ (z.ziProbsGet).2.ziProbsGet = ((z.ziProbsGet).1, (z.ziProbsGet).2) := by
  obtain ⟨nb, rfl⟩ := ZINB.init_ok_stores_logits h
  exact ⟨rfl, rfl, rfl, rfl, rfl⟩

/-- C7 witness: constructing with `zi_logits = 0` succeeds; the first
access computes and caches `logits_to_probs true 0`, and a second access
returns the cached pair unchanged. -/
theorem C7_zi_probs_lazy_once_cached_witness :
    (ZINB.ziProbsGet ⟨⟨2, 1, true, 1e-8⟩, 0, none⟩).1
      = logits_to_probs true 0
    ∧ (ZINB.ziProbsGet ⟨⟨2, 1, true, 1e-8⟩, 0, none⟩).2.zi_probs_cache
      = some (logits_to_probs true 0)
    ∧ (ZINB.ziProbsGet ⟨⟨2, 1, true, 1e-8⟩, 0, none⟩).2.ziProbsGet
      = ((ZINB.ziProbsGet ⟨⟨2, 1, true, 1e-8⟩, 0, none⟩).1,
         (ZINB.ziProbsGet ⟨⟨2, 1, true, 1e-8⟩, 0, none⟩).2) := by
  have hinit : ZINB.init none none none (some 2) (some 1) (some 0) true
      = .ok ⟨⟨2, 1, true, 1e-8⟩, 0, none⟩ := by
    unfold ZINB.init NB.init NB.fromMuTheta
    norm_num
  have h := C7_zi_probs_lazy_once_cached none none none (some 2) (some 1) 0
    true ⟨⟨2, 1, true, 1e-8⟩, 0, none⟩ hinit
  exact ⟨h.2.2.1, h.2.2.2.1, h.2.2.2.2⟩

/-- C8: with `validate_args` enabled, construction raises the domain error
immediately (no object returned) for a negative `mu` or `theta`, for both
`NB` and `ZINB`; and for every constructed `ZINB` the zero-inflation
probability lies in `[0, 1)` — it is a sigmoid of `zi_logits` and cannot
be supplied directly — so a zero-inflation probability `≥ 1` can never be
present at construction. -/
theorem C8_construction_domain_validation (m t : ℝ) (zl : Option ℝ)
    (hneg : m < 0 ∨ t < 0) :
    NB.init none none none (some m) (some t) true = .error .domainError
    ∧ ZINB.init none none none (some m) (some t) zl true
      = .error .domainError
    ∧ ∀ (tc pr lg mu th : Option ℝ) (zl2 : ℝ) (v : Bool) (z : ZINB),
        ZINB.init tc pr lg mu th (some zl2) v = .ok z →
        0 ≤ (z.ziProbsGet).1 ∧ (z.ziProbsGet).1 < 1 := by
  have hnb : NB.init none none none (some m) (some t) true
      = .error .domainError := by
    have hred : NB.init none none none (some m) (some t) true
        = NB.fromMuTheta m t true := by
      unfold NB.init
      simp
    rw [hred]
    unfold NB.fromMuTheta
    rw [if_pos ⟨rfl, hneg⟩]
  refine ⟨hnb, ?_, ?_⟩
  · unfold ZINB.init
    rw [hnb]
  · intro tc pr lg mu th zl2 v z hz
    obtain ⟨nb, rfl⟩ := ZINB.init_ok_stores_logits hz
    exact logits_to_probs_binary_mem_Ico zl2

/-- C8 witness: `mu = -1` is rejected at construction for both `NB` and
`ZINB`, and a concretely constructed `ZINB` has zero-inflation probability
in `[0, 1)`. -/
theorem C8_construction_domain_validation_witness :
    NB.init none none none (some (-1)) (some 1) true = .error .domainError
    ∧ ZINB.init none none none (some (-1)) (some 1) (some 0) true
      = .error .domainError
    ∧ (0 ≤ (ZINB.ziProbsGet ⟨⟨2, 1, true, 1e-8⟩, 0, none⟩).1
        ∧ (ZINB.ziProbsGet ⟨⟨2, 1, true, 1e-8⟩, 0, none⟩).1 < 1) := by
  have h := C8_construction_domain_validation (-1) 1 (some 0)
    (Or.inl (by norm_num))
  refine ⟨h.1, h.2.1, ?_⟩
  refine h.2.2 none none none (some 2) (some 1) 0 true
    ⟨⟨2, 1, true, 1e-8⟩, 0, none⟩ ?_
  unfold ZINB.init NB.init NB.fromMuTheta
  norm_num

end ScviDist
